import Mathlib

/-!
Shallow embedding of the PayD backend's contract-upgrade orchestrator
(`src/backend/src/services/contractUpgradeService.ts`), its HTTP controller
(`src/backend/src/controllers/contractUpgradeController.ts`) and the
contract-event indexer (`src/backend/src/services/contractEventIndexerService.ts`).

Database tables are modelled as Lean lists, SQL statements as pure list
transformations, and every external effect (Soroban RPC, signing, polling)
as an explicit outcome parameter passed to the operation.  Timestamps
(`NOW()`) are passed in as a `Nat` parameter.
-/

namespace PayD

/-! ## Generic string helpers (substring test used by the controller's
`handleError`, which branches on `msg.includes(...)`). -/

/-- `listStartsWith hay needle` : `hay` begins with `needle`. -/
def listStartsWith : List Char → List Char → Bool
  | _, [] => true
  | [], _ :: _ => false
  | a :: as, b :: bs => a = b && listStartsWith as bs

/-- `listContainsSub needle hay` : `needle` occurs contiguously in `hay`. -/
def listContainsSub (needle : List Char) : List Char → Bool
  | [] => needle.isEmpty
  | c :: t => listStartsWith (c :: t) needle || listContainsSub needle t

/-- JavaScript's `hay.includes(needle)`. -/
def strContains (hay needle : String) : Bool :=
  listContainsSub needle.data hay.data

/-- JavaScript's `s.toLowerCase()` (character-wise lowercasing; on the hash
domain only ASCII `A`–`Z` is affected). -/
def strToLower (s : String) : String :=
  String.mk (s.data.map Char.toLower)

/-! ## WASM hash format checks

The service uses `WASM_HASH_REGEX = /^[0-9a-f]{64}$/i` (note the `i` flag),
and the controller's zod schema uses `.length(64).regex(/^[0-9a-f]{64}$/i)`. -/

/-- A character matched by `[0-9a-f]` under the `i` (case-insensitive) flag. -/
def isHexCharCI (c : Char) : Bool :=
  ('0' ≤ c && c ≤ '9') || ('a' ≤ c && c ≤ 'f') || ('A' ≤ c && c ≤ 'F')

/-- `WASM_HASH_REGEX.test s` : `/^[0-9a-f]{64}$/i`. -/
def wasmHashRegexTest (s : String) : Bool :=
  s.length = 64 && s.data.all isHexCharCI

/-- The controller's `wasmHashSchema`: zod `.length(64)` plus the same
case-insensitive regex. -/
def wasmHashSchemaAccepts (s : String) : Bool :=
  s.length = 64 && wasmHashRegexTest s

/-! ## Data model (mirrors the exported TS interfaces and the SQL schema). -/

/-- `contract_registry` row (TS `ContractRecord`). -/
structure ContractRecord where
  id : Nat
  name : String
  network : String
  contract_id : String
  current_wasm_hash : String
  version : String
  last_upgraded_at : Option Nat
  last_upgraded_by : Option String
deriving DecidableEq, Repr

/-- Migration-step status (TS union type). -/
inductive StepStatus
  | pending
  | running
  | completed
  | failed
deriving DecidableEq, Repr

/-- One element of the `migration_steps` JSONB array (TS `MigrationStep`). -/
structure MigrationStep where
  id : String
  name : String
  status : StepStatus
  message : Option String
deriving DecidableEq, Repr

/-- `contract_upgrade_logs.status` values (CHECK constraint / TS union). -/
inductive LogStatus
  | pending
  | simulated
  | confirmed
  | executing
  | completed
  | failed
  | cancelled
deriving DecidableEq, Repr

/-- Render a `LogStatus` the way it is stored (used in error messages). -/
def statusString : LogStatus → String
  | .pending => "pending"
  | .simulated => "simulated"
  | .confirmed => "confirmed"
  | .executing => "executing"
  | .completed => "completed"
  | .failed => "failed"
  | .cancelled => "cancelled"

/-- TS `UpgradeSimulationResult`. -/
structure UpgradeSimulationResult where
  success : Bool
  estimatedFee : String
  estimatedFeeXlm : String
  cpuInstructions : String
  memoryBytes : String
  latestLedger : Int
  transactionData : Option String
  warnings : List String
  error : Option String
deriving DecidableEq, Repr

/-- `contract_upgrade_logs` row (TS `UpgradeLog`). -/
structure UpgradeLog where
  id : Nat
  registry_id : Nat
  previous_wasm_hash : String
  new_wasm_hash : String
  status : LogStatus
  simulation_result : Option UpgradeSimulationResult
  tx_hash : Option String
  migration_steps : List MigrationStep
  initiated_by : String
  notes : Option String
  error_message : Option String
  completed_at : Option Nat
deriving DecidableEq, Repr

/-- The relational state the upgrade service reads and writes:
the `contract_registry` table, the `contract_upgrade_logs` table, and the
next value of the log id sequence (`BIGSERIAL`). -/
structure DbState where
  registry : List ContractRecord
  upgradeLogs : List UpgradeLog
  nextLogId : Nat
deriving DecidableEq, Repr

/-- `SELECT * FROM contract_registry WHERE id = $1` (first row). -/
def getContract (registry : List ContractRecord) (registryId : Nat) :
    Option ContractRecord :=
  registry.find? (fun c => c.id = registryId)

/-- `SELECT * FROM contract_upgrade_logs WHERE id = $1` (first row). -/
def findLog (st : DbState) (logId : Nat) : Option UpgradeLog :=
  st.upgradeLogs.find? (fun l => l.id = logId)

/-- `UPDATE contract_upgrade_logs SET ... WHERE id = $logId`, with `f` the
per-row SET clause. -/
def updateLog (st : DbState) (logId : Nat) (f : UpgradeLog → UpgradeLog) :
    DbState :=
  { st with upgradeLogs := st.upgradeLogs.map (fun l => if l.id = logId then f l else l) }

/-- `DEFAULT_MIGRATION_STEPS` materialized by `buildDefaultMigrationSteps()`:
positional ids `step-0 … step-3`, all `pending`. -/
def buildDefaultMigrationSteps : List MigrationStep :=
  [ { id := "step-0", name := "Verify on-chain contract state", status := .pending, message := none },
    { id := "step-1", name := "Validate storage schema compatibility", status := .pending, message := none },
    { id := "step-2", name := "Re-index contract data entries", status := .pending, message := none },
    { id := "step-3", name := "Emit upgrade audit event", status := .pending, message := none } ]

/-! ## `validateWasmHash` -/

/-- Result of `validateWasmHash` (TS `{ valid, reason? }`). -/
structure ValidateResult where
  valid : Bool
  reason : Option String
deriving DecidableEq, Repr

/-- Outcome of the `server.getLedgerEntries(wasmKey)` call: either the RPC
round-trip threw, or it returned `n` entries. -/
inductive LedgerEntriesOutcome
  | unreachable (msg : String)
  | entries (n : Nat)
deriving DecidableEq, Repr

/-- Reason string returned by the format check. -/
def formatReason : String :=
  "WASM hash must be exactly 64 lowercase hex characters (SHA-256)."

/-- Reason string returned when `getLedgerEntries` finds no entry. -/
def wasmNotFoundReason : String :=
  "WASM hash not found on the network. Upload the WASM bytecode first via `stellar contract upload`."

/-- First argument of the `console.warn` emitted when the RPC check throws. -/
def rpcSkipWarning : String :=
  "ContractUpgradeService: RPC reachability check failed, skipping on-chain validation:"

/-- `ContractUpgradeService.validateWasmHash`.  Returns the TS return value
paired with the list of warnings logged via `console.warn`. -/
def validateWasmHash (registry : List ContractRecord) (registryId : Nat)
    (newWasmHash : String) (rpc : LedgerEntriesOutcome) :
    ValidateResult × List String :=
  if wasmHashRegexTest newWasmHash then
    match getContract registry registryId with
    | none => ({ valid := false, reason := some "Contract not found in registry." }, [])
    | some contract =>
      if strToLower newWasmHash = strToLower contract.current_wasm_hash then
        ({ valid := false,
           reason := some "New WASM hash is identical to the currently deployed hash. No upgrade needed." }, [])
      else
        match rpc with
        | .unreachable _ => ({ valid := true, reason := none }, [rpcSkipWarning])
        | .entries n =>
          if n = 0 then ({ valid := false, reason := some wasmNotFoundReason }, [])
          else ({ valid := true, reason := none }, [])
  else
    ({ valid := false, reason := some formatReason }, [])

/-! ## `simulateUpgrade`

The function first inserts the log row (`simulateInsertLog` — note it takes
no RPC outcome), then runs the simulation attempt and persists the result
(`simulateFinish`).  `SimRpc` abstracts everything inside the `try` block:
`.result sim` is any non-throwing path (funded-account simulation or the
`rawRpcSimulate` fallback), `.raised msg` is the `catch` branch. -/

/-- Outcome of the simulation `try` block. -/
inductive SimRpc
  | result (sim : UpgradeSimulationResult)
  | raised (msg : String)
deriving DecidableEq, Repr

/-- The `UpgradeSimulationResult` the service ends up with: the try-block's
value, or the synthetic failure built in the `catch` branch. -/
def simResultOfRpc : SimRpc → UpgradeSimulationResult
  | .result sim => sim
  | .raised msg =>
    { success := false, estimatedFee := "0", estimatedFeeXlm := "0.0000000",
      cpuInstructions := "0", memoryBytes := "0", latestLedger := 0,
      transactionData := none, warnings := [], error := some msg }

/-- The row `simulateUpgrade` hands to the `INSERT`: status `pending`,
hash snapshot (`new_wasm_hash` lowercased as in the source), default
migration steps, no simulation result yet.  Note the builder takes no RPC
outcome: the row exists before any simulation RPC is attempted. -/
def pendingRowOf (st : DbState) (registryId : Nat) (contract : ContractRecord)
    (newWasmHash initiatedBy : String) (notes : Option String) : UpgradeLog :=
  { id := st.nextLogId, registry_id := registryId,
    previous_wasm_hash := contract.current_wasm_hash,
    new_wasm_hash := strToLower newWasmHash,
    status := .pending, simulation_result := none, tx_hash := none,
    migration_steps := buildDefaultMigrationSteps,
    initiated_by := initiatedBy, notes := notes,
    error_message := none, completed_at := none }

/-- Postgres `~ '^[0-9a-f]{64}$'` (case-sensitive, unlike the JS regexes):
the CHECK placed on both hash columns of `contract_upgrade_logs` (and on
`contract_registry.current_wasm_hash`) by migration 014. -/
def wasmHashLowerHex (s : String) : Bool :=
  s.length = 64 && s.data.all (fun c => ('0' ≤ c && c ≤ '9') || ('a' ≤ c && c ≤ 'f'))

/-- The row-level CHECK constraints of `contract_upgrade_logs`
(migration 014): both hash columns lowercase 64-hex, and
`chk_different_hashes` (`new_wasm_hash <> previous_wasm_hash`). -/
def upgradeLogRowChecks (log : UpgradeLog) : Bool :=
  wasmHashLowerHex log.previous_wasm_hash &&
  wasmHashLowerHex log.new_wasm_hash &&
  log.new_wasm_hash ≠ log.previous_wasm_hash

/-- Outcome of the log-row `INSERT` phase. -/
inductive InsertLogOutcome
  | notFound
  | checkViolation
  | inserted (upgradeLogId : Nat)
deriving DecidableEq, Repr

/-- The constraint-violation error the database raises when the inserted
row fails a CHECK of migration 014 (e.g. `chk_different_hashes`); the
service has no try/catch around the `INSERT`, so it propagates to the
caller. -/
def insertCheckViolationMsg : String :=
  "new row for relation \"contract_upgrade_logs\" violates check constraint"

/-- Phase 1 of `simulateUpgrade`: contract lookup plus the
`INSERT INTO contract_upgrade_logs ... VALUES (..., 'pending', ...) RETURNING id`.
`.notFound` (state unchanged) mirrors
`throw new Error('Contract not found in registry.')`; `.checkViolation`
(state unchanged, zero rows) is the database rejecting a row that fails a
CHECK constraint — in particular a `new_wasm_hash` equal to the snapshot
`previous_wasm_hash`, which nothing screens before the insert. -/
def simulateInsertLog (st : DbState) (registryId : Nat)
    (newWasmHash initiatedBy : String) (notes : Option String) :
    DbState × InsertLogOutcome :=
  match getContract st.registry registryId with
  | none => (st, .notFound)
  | some contract =>
    let log : UpgradeLog := pendingRowOf st registryId contract newWasmHash initiatedBy notes
    if upgradeLogRowChecks log then
      ({ st with upgradeLogs := st.upgradeLogs ++ [log], nextLogId := st.nextLogId + 1 },
       .inserted st.nextLogId)
    else
      (st, .checkViolation)

/-- Phase 2 of `simulateUpgrade`: compute the simulation result and run
`UPDATE contract_upgrade_logs SET status, simulation_result, error_message,
completed_at = CASE WHEN failed THEN NOW() ELSE NULL END WHERE id = $4`. -/
def simulateFinish (st : DbState) (upgradeLogId : Nat) (rpc : SimRpc)
    (now : Nat) : DbState × UpgradeSimulationResult :=
  let sim := simResultOfRpc rpc
  let newStatus : LogStatus := if sim.success then .simulated else .failed
  (updateLog st upgradeLogId (fun l =>
     { l with status := newStatus, simulation_result := some sim,
              error_message := sim.error,
              completed_at := if sim.success then none else some now }),
   sim)

/-- `ContractUpgradeService.simulateUpgrade`. -/
def simulateUpgrade (st : DbState) (registryId : Nat)
    (newWasmHash initiatedBy : String) (notes : Option String)
    (rpc : SimRpc) (now : Nat) :
    DbState × Except String (Nat × UpgradeSimulationResult) :=
  match simulateInsertLog st registryId newWasmHash initiatedBy notes with
  | (st1, .notFound) => (st1, .error "Contract not found in registry.")
  | (st1, .checkViolation) => (st1, .error insertCheckViolationMsg)
  | (st1, .inserted upgradeLogId) =>
    let (st2, sim) := simulateFinish st1 upgradeLogId rpc now
    (st2, .ok (upgradeLogId, sim))

/-! ## `executeUpgrade` -/

/-- Outcome of the execution `try` block (account load, build, simulate,
sign, submit, confirmation polling): `.success txHash adminPublicKey`
reaches the registry update, `.failure msg` is any thrown error. -/
inductive ExecOutcome
  | success (txHash : String) (adminPublicKey : String)
  | failure (msg : String)
deriving DecidableEq, Repr

/-- TS `ExecuteUpgradeResult` (its `status` field is always `'executing'`). -/
structure ExecuteUpgradeResult where
  upgradeLogId : Nat
  txHash : String
deriving DecidableEq, Repr

/-- Error message thrown on a status-precondition violation. -/
def cannotExecuteMsg (status : LogStatus) : String :=
  "Cannot execute upgrade in status '" ++ statusString status ++
    "'. Expected 'simulated' or 'confirmed'."

/-- `ContractUpgradeService.executeUpgrade` up to (and including) writing
`tx_hash`; the fire-and-forget `runMigrationSteps` call is modelled
separately (the caller composes the two). -/
def executeUpgrade (st : DbState) (upgradeLogId : Nat)
    (outcome : ExecOutcome) (now : Nat) :
    DbState × Except String ExecuteUpgradeResult :=
  match findLog st upgradeLogId with
  | none => (st, .error "Upgrade log not found.")
  | some log =>
    if log.status = .simulated ∨ log.status = .confirmed then
      let st1 := updateLog st upgradeLogId (fun l => { l with status := .executing })
      match outcome with
      | .failure msg =>
        (updateLog st1 upgradeLogId (fun l =>
           { l with status := .failed, error_message := some msg,
                    completed_at := some now }),
         .error msg)
      | .success txHash adminPublicKey =>
        let st2 : DbState :=
          { st1 with registry := st1.registry.map (fun c =>
              if c.id = log.registry_id then
                { c with current_wasm_hash := log.new_wasm_hash,
                         last_upgraded_at := some now,
                         last_upgraded_by := some adminPublicKey }
              else c) }
        let st3 := updateLog st2 upgradeLogId (fun l => { l with tx_hash := some txHash })
        (st3, .ok { upgradeLogId := upgradeLogId, txHash := txHash })
    else
      (st, .error (cannotExecuteMsg log.status))

/-! ## `runMigrationSteps` -/

/-- Mark a step `completed` the way the loop body does. -/
def markStepCompleted (s : MigrationStep) : MigrationStep :=
  { s with status := .completed, message := some "Step completed successfully." }

/-- Mark a step `failed` with the caught error message. -/
def markStepFailed (s : MigrationStep) (msg : String) : MigrationStep :=
  { s with status := .failed, message := some msg }

/-- The `for` loop of `runMigrationSteps`: `exec i` abstracts
`executeStep(steps[i], registryId)` (`.ok ()` or `.error msg`).  Returns the
final step list and, on failure, `(stepName, errMsg)` of the failing step;
steps after a failure are never touched. -/
def runStepsLoop (exec : Nat → Except String Unit) :
    Nat → List MigrationStep → List MigrationStep × Option (String × String)
  | _, [] => ([], none)
  | i, s :: rest =>
    match exec i with
    | .ok _ =>
      let (rest2, fail2) := runStepsLoop exec (i + 1) rest
      (markStepCompleted s :: rest2, fail2)
    | .error msg =>
      (markStepFailed s msg :: rest, some (s.name, msg))

/-- Parent-log error message written on a step failure. -/
def migrationFailedMsg (stepName errMsg : String) : String :=
  "Migration step '" ++ stepName ++ "' failed: " ++ errMsg

/-- `ContractUpgradeService.runMigrationSteps`: load the step list, run the
loop, persist the final list, and mark the parent log `failed` (on a step
failure) or `completed` (when every step succeeded). -/
def runMigrationSteps (st : DbState) (upgradeLogId : Nat)
    (exec : Nat → Except String Unit) (now : Nat) : DbState :=
  match findLog st upgradeLogId with
  | none => st
  | some log =>
    match runStepsLoop exec 0 log.migration_steps with
    | (steps2, some (stepName, errMsg)) =>
      updateLog st upgradeLogId (fun l =>
        { l with migration_steps := steps2, status := .failed,
                 error_message := some (migrationFailedMsg stepName errMsg),
                 completed_at := some now })
    | (steps2, none) =>
      updateLog st upgradeLogId (fun l =>
        { l with migration_steps := steps2, status := .completed,
                 completed_at := some now })

/-! ## `cancelUpgrade` -/

/-- Statuses matched by `status IN ('pending', 'simulated', 'confirmed')`. -/
def cancellable : LogStatus → Bool
  | .pending => true
  | .simulated => true
  | .confirmed => true
  | _ => false

/-- Error thrown when the guarded `UPDATE` matched no row. -/
def cancelErrMsg : String :=
  "Upgrade cannot be cancelled — it may have already started executing."

/-- `ContractUpgradeService.cancelUpgrade`: a single guarded
`UPDATE ... SET status='cancelled', completed_at=NOW() WHERE id=$1 AND
status IN ('pending','simulated','confirmed') RETURNING id`; throws when
`rowCount = 0`. -/
def cancelUpgrade (st : DbState) (upgradeLogId : Nat) (now : Nat) :
    DbState × Except String Unit :=
  if st.upgradeLogs.any (fun l => l.id = upgradeLogId && cancellable l.status) then
    ({ st with upgradeLogs := st.upgradeLogs.map (fun l =>
         if l.id = upgradeLogId && cancellable l.status then
           { l with status := .cancelled, completed_at := some now }
         else l) },
     .ok ())
  else
    (st, .error cancelErrMsg)

/-! ## Controller layer (`contractUpgradeController.ts`) -/

/-- An error reaching the controller's `handleError`: a zod schema failure
or a service-thrown `Error` carrying a message. -/
inductive CtrlError
  | zod
  | service (msg : String)
deriving DecidableEq, Repr

/-- `ContractUpgradeController.handleError`, as the HTTP status it writes. -/
def handleErrorStatus : CtrlError → Nat
  | .zod => 400
  | .service msg =>
    if strContains msg "invalid" || strContains msg "Invalid" ||
        strContains msg "Invalid secret" then 400
    else if strContains msg "not found" then 404
    else if strContains msg "Cannot execute" || strContains msg "cannot be cancelled" then 409
    else 500

/-- `simulateBodySchema`: the hash schema plus the `initiatedBy` / `notes`
constraints. -/
def simulateBodyValid (newWasmHash initiatedBy : String)
    (notes : Option String) : Bool :=
  wasmHashSchemaAccepts newWasmHash &&
  decide (56 ≤ initiatedBy.length) && decide (initiatedBy.length ≤ 64) &&
  (match notes with
   | some n => decide (n.length ≤ 1000)
   | none => true)

/-- HTTP-level result of the simulate-upgrade endpoint. -/
inductive SimulateHttpResult
  | validationError
  | ok (upgradeLogId : Nat) (sim : UpgradeSimulationResult)
  | errorResp (status : Nat) (msg : String)
deriving DecidableEq, Repr

/-- `ContractUpgradeController.simulateUpgrade` (params already parsed):
zod body validation, then the service call, errors mapped by `handleError`. -/
def controllerSimulateUpgrade (st : DbState) (registryId : Nat)
    (newWasmHash initiatedBy : String) (notes : Option String)
    (rpc : SimRpc) (now : Nat) : DbState × SimulateHttpResult :=
  if simulateBodyValid newWasmHash initiatedBy notes then
    match simulateUpgrade st registryId newWasmHash initiatedBy notes rpc now with
    | (st1, .ok (upgradeLogId, sim)) => (st1, .ok upgradeLogId sim)
    | (st1, .error msg) => (st1, .errorResp (handleErrorStatus (.service msg)) msg)
  else
    (st, .validationError)

/-- HTTP-level result of the validate-hash endpoint. -/
inductive ValidateHttpResult
  | validationError
  | ok (result : ValidateResult)
deriving DecidableEq, Repr

/-- `ContractUpgradeController.validateHash` (params already parsed). -/
def controllerValidateHash (st : DbState) (registryId : Nat)
    (newWasmHash : String) (rpc : LedgerEntriesOutcome) : ValidateHttpResult :=
  if wasmHashSchemaAccepts newWasmHash then
    .ok (validateWasmHash st.registry registryId newWasmHash rpc).1
  else
    .validationError

/-! ## Event indexer (`contractEventIndexerService.ts`) -/

/-- An event object returned by the `getEvents` RPC (TS `RpcContractEvent`).
Optional fields model `undefined`; `some ""` models a present-but-empty
string (falsy under `||`, non-nullish under `??`). -/
structure RpcContractEvent where
  id : Option String
  type : Option String
  txHash : Option String
  ledger : Option Int
  ledgerSequence : Option Int
  contractId : Option String
  topic : Option (List String)
deriving DecidableEq, Repr

/-- A `contract_events` row (the columns written by the indexer). -/
structure EventRow where
  event_id : String
  contract_id : String
  event_type : String
  ledger_sequence : Int
  tx_hash : Option String
deriving DecidableEq, Repr

/-- The indexer's persistent state: the `contract_events` table and the
`contract_event_index_state` row for the stream key (`none` when the row
is missing). -/
structure IndexerState where
  events : List EventRow
  checkpoint : Option Int
deriving DecidableEq, Repr

/-- The two defensive skips of the loop body:
`String(event.contractId || '')` empty, or
`Number(event.ledgerSequence ?? event.ledger ?? 0)` non-positive.
Returns the contract id and ledger sequence of a considered event. -/
def considerEvent (e : RpcContractEvent) : Option (String × Int) :=
  let contractId := e.contractId.getD ""
  if contractId = "" then none
  else
    let ledgerSequence : Int := e.ledgerSequence.getD (e.ledger.getD 0)
    if ledgerSequence ≤ 0 then none
    else some (contractId, ledgerSequence)

/-- The deterministic fallback identity
`${contractId}-${ledgerSequence}-${event.txHash || ''}`. -/
def fallbackEventId (contractId : String) (ledgerSequence : Int)
    (txHash : Option String) : String :=
  contractId ++ "-" ++ toString ledgerSequence ++ "-" ++ txHash.getD ""

/-- `String(event.id || fallback)`. -/
def eventIdOf (e : RpcContractEvent) (contractId : String)
    (ledgerSequence : Int) : String :=
  match e.id with
  | some s => if s = "" then fallbackEventId contractId ledgerSequence e.txHash else s
  | none => fallbackEventId contractId ledgerSequence e.txHash

/-- `ContractEventIndexerService.extractEventType`. -/
def extractEventType (e : RpcContractEvent) : String :=
  let fromTopic : String :=
    match e.topic with
    | some (t :: _) => t
    | _ => "unknown"
  match e.type with
  | some t => if t = "" then fromTopic else t
  | none => fromTopic

/-- The row the loop body builds for a considered event
(`event.txHash ? String(event.txHash) : null` for the `tx_hash` column). -/
def mkEventRow (e : RpcContractEvent) (contractId : String)
    (ledgerSequence : Int) : EventRow :=
  { event_id := eventIdOf e contractId ledgerSequence,
    contract_id := contractId,
    event_type := extractEventType e,
    ledger_sequence := ledgerSequence,
    tx_hash := match e.txHash with
               | some s => if s = "" then none else some s
               | none => none }

/-- Does the store already hold a row with this (`event_id`,`contract_id`)
key (the `uq_contract_events_event_id` unique index)? -/
def hasKey (store : List EventRow) (eventId contractId : String) : Bool :=
  store.any (fun r => r.event_id = eventId && r.contract_id = contractId)

/-- `INSERT ... ON CONFLICT (event_id, contract_id) DO NOTHING`. -/
def insertEventRow (store : List EventRow) (row : EventRow) : List EventRow :=
  if hasKey store row.event_id row.contract_id then store else store ++ [row]

/-- The `for (const event of events)` loop: threads the store and
`maxLedger` (initialised to `lastIndexed`) through the events in order. -/
def processEvents : List RpcContractEvent → List EventRow → Int →
    List EventRow × Int
  | [], store, lastIndexed => (store, lastIndexed)
  | e :: rest, store, lastIndexed =>
    match considerEvent e with
    | none => processEvents rest store lastIndexed
    | some (contractId, ledgerSequence) =>
      processEvents rest
        (insertEventRow store (mkEventRow e contractId ledgerSequence))
        (max lastIndexed ledgerSequence)

/-- `ContractEventIndexerService.pollOnce`, one cycle.  `floor` is
`DEFAULT_START_LEDGER` (used both as the missing-checkpoint default and in
`startLedger = max(lastIndexed + 1, DEFAULT_START_LEDGER)`), `contracts`
the configured contract id set, and `rpc` abstracts `fetchContractEvents`
as a function of `startLedger` (`.error` is a thrown RPC error, caught by
the surrounding `try`, ending the cycle with no writes).  The checkpoint
`UPDATE ... WHERE state_key` touches nothing when the state row is
missing, hence the `Option.map`. -/
def pollOnce (floor : Int) (contracts : List String)
    (rpc : Int → Except String (List RpcContractEvent))
    (st : IndexerState) : IndexerState :=
  if contracts.isEmpty then st
  else
    match rpc (max (st.checkpoint.getD floor + 1) floor) with
    | .error _ => st
    | .ok events =>
      if events.isEmpty then st
      else
        if st.checkpoint.getD floor
            < (processEvents events st.events (st.checkpoint.getD floor)).2 then
          { events := (processEvents events st.events (st.checkpoint.getD floor)).1,
            checkpoint := st.checkpoint.map
              (fun _ => (processEvents events st.events (st.checkpoint.getD floor)).2) }
        else
          { st with
            events := (processEvents events st.events (st.checkpoint.getD floor)).1 }

/-- The maximum ledger sequence among the considered events of a batch,
starting from `lastIndexed` (proved below to equal the `maxLedger`
component of `processEvents`). -/
def maxConsideredLedger : List RpcContractEvent → Int → Int
  | [], lastIndexed => lastIndexed
  | e :: rest, lastIndexed =>
    match considerEvent e with
    | none => maxConsideredLedger rest lastIndexed
    | some (_, ledgerSequence) =>
      maxConsideredLedger rest (max lastIndexed ledgerSequence)

/-- No two rows of the store share an (`event_id`,`contract_id`) key — the
invariant enforced by the unique index. -/
def uniqueEventKeys (store : List EventRow) : Prop :=
  store.Pairwise (fun a b => ¬(a.event_id = b.event_id ∧ a.contract_id = b.contract_id))

/-! ## Concrete fixtures (used by witnesses and counterexamples) -/

/-- 64 × `a` — a well-formed lowercase hash. -/
def hashA : String := String.mk (List.replicate 64 'a')

/-- 64 × `b` — a second well-formed lowercase hash. -/
def hashB : String := String.mk (List.replicate 64 'b')

/-- 64 × `B` — 64 hex characters, but uppercase. -/
def upperHashB : String := String.mk (List.replicate 64 'B')

/-- A 56-character Stellar-shaped public key accepted by the zod schema. -/
def exAdmin : String := String.mk ('G' :: List.replicate 55 'A')

/-- A registry row whose live hash is `hashA`. -/
def exContract : ContractRecord :=
  { id := 1, name := "Bulk Payment", network := "TESTNET", contract_id := "CABC",
    current_wasm_hash := hashA, version := "1.0.0",
    last_upgraded_at := none, last_upgraded_by := none }

/-- A freshly created (`pending`) upgrade log for `exContract`. -/
def exLogPending : UpgradeLog :=
  { id := 1, registry_id := 1, previous_wasm_hash := hashA, new_wasm_hash := hashB,
    status := .pending, simulation_result := none, tx_hash := none,
    migration_steps := buildDefaultMigrationSteps, initiated_by := "GADMIN",
    notes := none, error_message := none, completed_at := none }

/-! ## Shared helper lemmas -/

/-- `find?` over a pointwise update that rewrites exactly the rows matching
the searched id, when the update preserves ids. -/
lemma find_update_list (logs : List UpgradeLog) (i : Nat)
    (f : UpgradeLog → UpgradeLog) (hf : ∀ l, (f l).id = l.id) :
    (logs.map (fun l => if l.id = i then f l else l)).find? (fun l => l.id = i)
      = (logs.find? (fun l => l.id = i)).map f := by
  induction logs with
  | nil => simp
  | cons a t ih =>
    by_cases h : a.id = i
    · simp [List.find?_cons, h, hf]
    · simp [List.find?_cons, h, ih]

/-- `findLog` after `updateLog` at the same id. -/
lemma findLog_updateLog (st : DbState) (i : Nat) (f : UpgradeLog → UpgradeLog)
    (hf : ∀ l, (f l).id = l.id) :
    findLog (updateLog st i f) i = (findLog st i).map f := by
  unfold findLog updateLog
  exact find_update_list st.upgradeLogs i f hf

/-- A found log is a member with the searched id. -/
lemma findLog_mem_id (st : DbState) (i : Nat) (log : UpgradeLog)
    (h : findLog st i = some log) : log ∈ st.upgradeLogs ∧ log.id = i := by
  refine ⟨List.mem_of_find?_eq_some h, ?_⟩
  have := List.find?_some h
  simpa using this

/-- With `Nodup` ids, any member carrying the searched id is the found log. -/
lemma findLog_unique (st : DbState) (i : Nat) (log l : UpgradeLog)
    (huniq : (st.upgradeLogs.map UpgradeLog.id).Nodup)
    (hfind : findLog st i = some log) (hl : l ∈ st.upgradeLogs)
    (hid : l.id = i) : l = log := by
  obtain ⟨hmem, hlogid⟩ := findLog_mem_id st i log hfind
  exact List.inj_on_of_nodup_map huniq hl hmem (by rw [hid, hlogid])

/-- When no row matches the guarded cancel `UPDATE`, the service throws and
the state is untouched. -/
lemma cancelUpgrade_no_match (st : DbState) (upgradeLogId : Nat) (now : Nat)
    (h : ∀ l ∈ st.upgradeLogs, ¬(l.id = upgradeLogId ∧ cancellable l.status = true)) :
    cancelUpgrade st upgradeLogId now = (st, .error cancelErrMsg) := by
  unfold cancelUpgrade
  have hany : st.upgradeLogs.any
      (fun l => l.id = upgradeLogId && cancellable l.status) = false := by
    rw [List.any_eq_false]
    intro l hl
    have := h l hl
    simp only [Bool.and_eq_true, decide_eq_true_eq] at *
    tauto
  simp [hany]

/-! ## Claim theorems -/

/-- C7: for every `UpgradeLog` whose status is neither `simulated` nor
`confirmed`, `executeUpgrade` throws the `Cannot execute upgrade in status
'<actual>'` error (mapped to HTTP 409, the `InvalidStateError` bucket) and
leaves the database — in particular the log's status — unchanged. -/
theorem executeUpgrade_rejects_bad_status (st : DbState) (upgradeLogId : Nat)
    (log : UpgradeLog) (outcome : ExecOutcome) (now : Nat)
    (hfind : findLog st upgradeLogId = some log)
    (hstatus : ¬(log.status = .simulated ∨ log.status = .confirmed)) :
    executeUpgrade st upgradeLogId outcome now
        = (st, .error (cannotExecuteMsg log.status))
    ∧ strContains (cannotExecuteMsg log.status) (statusString log.status) = true
    ∧ handleErrorStatus (.service (cannotExecuteMsg log.status)) = 409 := by
  refine ⟨?_, ?_, ?_⟩
  · unfold executeUpgrade
    rw [hfind]
    simp [hstatus]
  · cases log.status <;> decide
  · cases log.status <;> decide

/-- Witness for C7 at a concrete `pending` log. -/
theorem executeUpgrade_rejects_bad_status_witness :
    executeUpgrade (DbState.mk [] [{ exLogPending with status := .pending }] 2) 1
        (.success "deadbeef" "GADMIN") 5
      = (DbState.mk [] [{ exLogPending with status := .pending }] 2,
         .error (cannotExecuteMsg .pending)) :=
  (executeUpgrade_rejects_bad_status
      (DbState.mk [] [{ exLogPending with status := .pending }] 2) 1
      { exLogPending with status := .pending }
      (.success "deadbeef" "GADMIN") 5 (by decide) (by decide)).1

/-- When some row matches the guarded cancel `UPDATE`, the matching rows are
rewritten and the service returns normally. -/
lemma cancelUpgrade_match (st : DbState) (upgradeLogId : Nat) (now : Nat)
    (h : st.upgradeLogs.any
        (fun l => l.id = upgradeLogId && cancellable l.status) = true) :
    cancelUpgrade st upgradeLogId now
      = ({ st with upgradeLogs := st.upgradeLogs.map (fun l =>
           if l.id = upgradeLogId && cancellable l.status then
             { l with status := .cancelled, completed_at := some now }
           else l) }, .ok ()) := by
  unfold cancelUpgrade
  rw [h]
  simp

/-- C8: `cancelUpgrade` succeeds exactly when the log's status is `pending`,
`simulated` or `confirmed`; on success the log becomes `cancelled` with
`completed_at` set and every other log is untouched; cancelling an
`executing` or terminal log throws the `ConflictError` and leaves the
database unchanged. -/
theorem cancelUpgrade_state_machine (st : DbState) (upgradeLogId : Nat)
    (log : UpgradeLog) (now : Nat)
    (hfind : findLog st upgradeLogId = some log)
    (huniq : (st.upgradeLogs.map UpgradeLog.id).Nodup) :
    ((cancelUpgrade st upgradeLogId now).2 = .ok () ↔ cancellable log.status = true)
    ∧ (cancellable log.status = true →
        findLog (cancelUpgrade st upgradeLogId now).1 upgradeLogId
          = some { log with status := .cancelled, completed_at := some now }
        ∧ ∀ l ∈ st.upgradeLogs, l.id ≠ upgradeLogId →
            l ∈ (cancelUpgrade st upgradeLogId now).1.upgradeLogs)
    ∧ (cancellable log.status = false →
        cancelUpgrade st upgradeLogId now = (st, .error cancelErrMsg)) := by
  obtain ⟨hmem, hid⟩ := findLog_mem_id st upgradeLogId log hfind
  have hnomatch : cancellable log.status = false →
      cancelUpgrade st upgradeLogId now = (st, .error cancelErrMsg) := by
    intro hcan
    refine cancelUpgrade_no_match st upgradeLogId now (fun l hl => ?_)
    rintro ⟨hlid, hlcan⟩
    have : l = log := findLog_unique st upgradeLogId log l huniq hfind hl hlid
    rw [this, hcan] at hlcan
    exact Bool.false_ne_true hlcan
  have hmatch : cancellable log.status = true →
      st.upgradeLogs.any (fun l => l.id = upgradeLogId && cancellable l.status) = true := by
    intro hcan
    rw [List.any_eq_true]
    exact ⟨log, hmem, by simp [hid, hcan]⟩
  refine ⟨?_, ?_, hnomatch⟩
  · constructor
    · intro hok
      by_contra hcan
      have hcan2 : cancellable log.status = false := by
        cases h : cancellable log.status
        · rfl
        · exact absurd h hcan
      rw [hnomatch hcan2] at hok
      simp at hok
    · intro hcan
      unfold cancelUpgrade
      rw [hmatch hcan]
      simp
  · intro hcan
    constructor
    · rw [cancelUpgrade_match st upgradeLogId now (hmatch hcan)]
      show (st.upgradeLogs.map (fun l =>
           if l.id = upgradeLogId && cancellable l.status then
             { l with status := LogStatus.cancelled, completed_at := some now }
           else l)).find? (fun l => l.id = upgradeLogId)
         = some { log with status := .cancelled, completed_at := some now }
      have hrw : (st.upgradeLogs.map (fun l =>
            if l.id = upgradeLogId && cancellable l.status then
              { l with status := LogStatus.cancelled, completed_at := some now }
            else l)).find? (fun l => l.id = upgradeLogId)
          = (st.upgradeLogs.map (fun l =>
            if l.id = upgradeLogId then
              (if cancellable l.status then
                { l with status := LogStatus.cancelled, completed_at := some now }
               else l)
            else l)).find? (fun l => l.id = upgradeLogId) := by
        congr 1
        apply List.map_congr_left
        intro l _
        by_cases h1 : l.id = upgradeLogId
        · by_cases h2 : cancellable l.status <;> simp [h1, h2]
        · simp [h1]
      rw [hrw, find_update_list st.upgradeLogs upgradeLogId _
            (fun l => by by_cases h2 : cancellable l.status <;> simp [h2])]
      unfold findLog at hfind
      rw [hfind]
      have hlogcan : cancellable log.status := hcan
      simp [hlogcan]
    · intro l hl hlid
      rw [cancelUpgrade_match st upgradeLogId now (hmatch hcan)]
      show l ∈ st.upgradeLogs.map (fun l =>
           if l.id = upgradeLogId && cancellable l.status then
             { l with status := LogStatus.cancelled, completed_at := some now }
           else l)
      have : (fun l : UpgradeLog =>
          if l.id = upgradeLogId && cancellable l.status then
            { l with status := LogStatus.cancelled, completed_at := some now }
          else l) l = l := by
        simp [hlid]
      rw [← this]
      exact List.mem_map_of_mem _ hl

/-- Witness for C8 at a concrete `simulated` log. -/
theorem cancelUpgrade_state_machine_witness :
    findLog ((cancelUpgrade
        (DbState.mk [] [{ exLogPending with status := .simulated }] 2) 1 7).1) 1
      = some { exLogPending with status := .cancelled, completed_at := some 7 } := by
  have h := cancelUpgrade_state_machine
      (DbState.mk [] [{ exLogPending with status := .simulated }] 2) 1
      { exLogPending with status := .simulated } 7 (by decide) (by simp)
  exact (h.2.1 (by decide)).1

/-- C10: cancelling a non-existent upgrade log throws exactly the same
`cannot be cancelled` error as cancelling a too-late (`executing`) log —
which the controller maps to HTTP 409, not 404 — so callers cannot tell a
missing log from a too-late cancellation. -/
theorem cancelUpgrade_missing_log_conflict (st : DbState) (upgradeLogId : Nat)
    (now : Nat) (hnone : findLog st upgradeLogId = none) :
    cancelUpgrade st upgradeLogId now = (st, .error cancelErrMsg)
    ∧ (∀ st2 upgradeLogId2 log2 now2,
        findLog st2 upgradeLogId2 = some log2 → log2.status = .executing →
        (st2.upgradeLogs.map UpgradeLog.id).Nodup →
        (cancelUpgrade st2 upgradeLogId2 now2).2
          = (cancelUpgrade st upgradeLogId now).2)
    ∧ handleErrorStatus (.service cancelErrMsg) = 409
    ∧ handleErrorStatus (.service cancelErrMsg) ≠ 404 := by
  have hself : cancelUpgrade st upgradeLogId now = (st, .error cancelErrMsg) := by
    refine cancelUpgrade_no_match st upgradeLogId now (fun l hl => ?_)
    rintro ⟨hlid, -⟩
    unfold findLog at hnone
    rw [List.find?_eq_none] at hnone
    exact hnone l hl (by simpa using hlid)
  refine ⟨hself, ?_, by decide, by decide⟩
  intro st2 upgradeLogId2 log2 now2 hfind2 hexec huniq2
  have h2 : cancelUpgrade st2 upgradeLogId2 now2 = (st2, .error cancelErrMsg) := by
    refine cancelUpgrade_no_match st2 upgradeLogId2 now2 (fun l hl => ?_)
    rintro ⟨hlid, hlcan⟩
    have : l = log2 := findLog_unique st2 upgradeLogId2 log2 l huniq2 hfind2 hl hlid
    rw [this, hexec] at hlcan
    exact absurd hlcan (by decide)
  rw [h2, hself]

/-- Witness for C10: no log with id 9 exists. -/
theorem cancelUpgrade_missing_log_conflict_witness :
    cancelUpgrade (DbState.mk [] [exLogPending] 2) 9 3
      = (DbState.mk [] [exLogPending] 2, .error cancelErrMsg) :=
  (cancelUpgrade_missing_log_conflict (DbState.mk [] [exLogPending] 2) 9 3
      (by decide)).1

/-- C9: for a well-formed `newHash` differing from the registry's current
hash, an unreachable RPC makes `validateWasmHash` skip the on-chain check
with a logged warning and return `valid = true`; a reachable RPC returning
no entry yields `valid = false` with a reason stating the code was not
found on the network. -/
theorem validateWasmHash_rpc_advisory (registry : List ContractRecord)
    (registryId : Nat) (newWasmHash : String) (contract : ContractRecord)
    (hfmt : wasmHashRegexTest newWasmHash = true)
    (hc : getContract registry registryId = some contract)
    (hdiff : strToLower newWasmHash ≠ strToLower contract.current_wasm_hash) :
    (∀ msg, validateWasmHash registry registryId newWasmHash (.unreachable msg)
        = ({ valid := true, reason := none }, [rpcSkipWarning]))
    ∧ validateWasmHash registry registryId newWasmHash (.entries 0)
        = ({ valid := false, reason := some wasmNotFoundReason }, [])
    ∧ strContains wasmNotFoundReason "not found on the network" = true := by
  refine ⟨?_, ?_, by decide⟩
  · intro msg
    unfold validateWasmHash
    rw [hfmt, hc]
    simp [hdiff]
  · unfold validateWasmHash
    rw [hfmt, hc]
    simp [hdiff]

/-- Witness for C9 at `hashB` against a registry holding `hashA`. -/
theorem validateWasmHash_rpc_advisory_witness :
    validateWasmHash [exContract] 1 hashB (.unreachable "ECONNREFUSED")
      = ({ valid := true, reason := none }, [rpcSkipWarning]) :=
  (validateWasmHash_rpc_advisory [exContract] 1 hashB exContract
      (by decide) (by decide) (by decide)).1 "ECONNREFUSED"

/-- C2 counterexample: 64 uppercase hex characters. The claim demands a
`ValidationError` for anything other than 64 lowercase hex characters, but
both regexes carry the case-insensitive `i` flag: the zod schema accepts
the hash, `validateWasmHash` treats it as well-formed, and
`simulateUpgrade` runs and creates an UpgradeLog row. -/
theorem wasm_hash_uppercase_accepted :
    wasmHashSchemaAccepts upperHashB = true
    ∧ (validateWasmHash [exContract] 1 upperHashB (.entries 1)).1
        = { valid := true, reason := none }
    ∧ (controllerSimulateUpgrade
        (DbState.mk [exContract] [] 1) 1 upperHashB exAdmin none
        (.raised "rpc down") 0).1.upgradeLogs.length = 1
    ∧ (controllerSimulateUpgrade
        (DbState.mk [exContract] [] 1) 1 upperHashB exAdmin none
        (.raised "rpc down") 0).2 ≠ .validationError := by
  refine ⟨by decide, by decide, by decide, by decide⟩

/-- C2 (amended): for every `newHash` that is not 64 hex characters ignoring
case (wrong length or a non-hex character), the format check fails:
`validateWasmHash` reports the format reason, the validate-hash endpoint
rejects with a `ValidationError`, and the simulate-upgrade endpoint rejects
with a `ValidationError` leaving the database unchanged — in particular no
UpgradeLog row is created. -/
theorem malformed_hash_rejected (st : DbState) (registryId : Nat)
    (newWasmHash initiatedBy : String) (notes : Option String)
    (simRpc : SimRpc) (ledgerRpc : LedgerEntriesOutcome) (now : Nat)
    (hbad : wasmHashRegexTest newWasmHash = false) :
    (validateWasmHash st.registry registryId newWasmHash ledgerRpc).1
        = { valid := false, reason := some formatReason }
    ∧ controllerValidateHash st registryId newWasmHash ledgerRpc = .validationError
    ∧ controllerSimulateUpgrade st registryId newWasmHash initiatedBy notes
        simRpc now = (st, .validationError) := by
  have hschema : wasmHashSchemaAccepts newWasmHash = false := by
    unfold wasmHashSchemaAccepts
    rw [hbad]
    simp
  refine ⟨?_, ?_, ?_⟩
  · unfold validateWasmHash
    rw [hbad]
    simp
  · unfold controllerValidateHash
    rw [hschema]
    simp
  · unfold controllerSimulateUpgrade
    have hbody : simulateBodyValid newWasmHash initiatedBy notes = false := by
      unfold simulateBodyValid
      rw [hschema]
      simp
    rw [hbody]
    simp

/-- Witness for C2 (amended) at a three-character hash. -/
theorem malformed_hash_rejected_witness :
    controllerSimulateUpgrade (DbState.mk [exContract] [] 1) 1 "xyz" exAdmin
        none (.raised "rpc down") 0
      = (DbState.mk [exContract] [] 1, .validationError) :=
  (malformed_hash_rejected (DbState.mk [exContract] [] 1) 1 "xyz" exAdmin
      none (.raised "rpc down") (.entries 1) 0 (by decide)).2.2

/-- C3 counterexample states: `simulateUpgrade` is called with a `newHash`
equal to the contract's current hash — the contract exists, nothing
screens identity before the `INSERT`, and the inserted row violates
`chk_different_hashes`, so the call throws and creates zero rows. -/
theorem simulateUpgrade_identical_hash_no_row :
    getContract (DbState.mk [exContract] [] 1).registry 1 = some exContract
    ∧ (simulateUpgrade (DbState.mk [exContract] [] 1) 1 hashA exAdmin none
        (.raised "x") 0).1 = DbState.mk [exContract] [] 1
    ∧ (simulateUpgrade (DbState.mk [exContract] [] 1) 1 hashA exAdmin none
        (.raised "x") 0).1.upgradeLogs.length = 0
    ∧ (simulateUpgrade (DbState.mk [exContract] [] 1) 1 hashA exAdmin none
        (.raised "x") 0).2 = .error insertCheckViolationMsg := by
  refine ⟨by decide, by decide, by decide, by rfl⟩

/-- C3 (amended): on an existing contract, whenever the pending row
satisfies the `contract_upgrade_logs` row CHECKs — in particular the
lowercased `newHash` differs from the contract's current hash —
`simulateUpgrade` appends exactly one UpgradeLog row.  The row is created
in status `pending` with previous/new hash and the default migration steps
(all `pending`) by the insert phase, which runs before any simulation RPC
(it does not depend on the RPC outcome); the full operation then leaves
that single row with status `simulated` when the simulation result is a
success and `failed` otherwise, with `completed_at` set exactly in the
failure case.  (A call whose row fails a CHECK — an identical hash — makes
the `INSERT` throw and creates no row, per the counterexample.) -/
theorem simulateUpgrade_creates_one_log (st : DbState) (registryId : Nat)
    (newWasmHash initiatedBy : String) (notes : Option String)
    (rpc : SimRpc) (now : Nat) (contract : ContractRecord)
    (hc : getContract st.registry registryId = some contract)
    (hchk : upgradeLogRowChecks
        (pendingRowOf st registryId contract newWasmHash initiatedBy notes) = true)
    (hfresh : ∀ l ∈ st.upgradeLogs, l.id ≠ st.nextLogId) :
    (simulateInsertLog st registryId newWasmHash initiatedBy notes).1.upgradeLogs
        = st.upgradeLogs ++ [pendingRowOf st registryId contract newWasmHash initiatedBy notes]
    ∧ (pendingRowOf st registryId contract newWasmHash initiatedBy notes).status = .pending
    ∧ (∀ s ∈ (pendingRowOf st registryId contract newWasmHash initiatedBy notes).migration_steps,
        s.status = .pending)
    ∧ (simulateUpgrade st registryId newWasmHash initiatedBy notes rpc now).1.upgradeLogs
        = st.upgradeLogs ++
          [{ pendingRowOf st registryId contract newWasmHash initiatedBy notes with
              status := if (simResultOfRpc rpc).success then .simulated else .failed,
              simulation_result := some (simResultOfRpc rpc),
              error_message := (simResultOfRpc rpc).error,
              completed_at := if (simResultOfRpc rpc).success then none else some now }]
    ∧ (simulateUpgrade st registryId newWasmHash initiatedBy notes rpc now).2
        = .ok (st.nextLogId, simResultOfRpc rpc) := by
  have hins : simulateInsertLog st registryId newWasmHash initiatedBy notes
      = ({ st with
            upgradeLogs := st.upgradeLogs ++
              [pendingRowOf st registryId contract newWasmHash initiatedBy notes],
            nextLogId := st.nextLogId + 1 },
         .inserted st.nextLogId) := by
    unfold simulateInsertLog
    rw [hc]
    simp only [hchk, if_true]
  refine ⟨by rw [hins], rfl, ?_, ?_, ?_⟩
  · intro s hs
    simp only [pendingRowOf, buildDefaultMigrationSteps] at hs
    fin_cases hs <;> rfl
  · unfold simulateUpgrade
    rw [hins]
    unfold simulateFinish updateLog
    simp only [List.map_append]
    congr 1
    · conv_rhs => rw [← List.map_id st.upgradeLogs]
      apply List.map_congr_left
      intro l hl
      simp [hfresh l hl]
    · have hid : (pendingRowOf st registryId contract newWasmHash initiatedBy
          notes).id = st.nextLogId := rfl
      simp [hid]
  · unfold simulateUpgrade
    rw [hins]
    rfl

/-- Witness for C3: a failing simulation RPC still records one `failed` row. -/
theorem simulateUpgrade_creates_one_log_witness :
    (simulateUpgrade (DbState.mk [exContract] [] 1) 1 hashB exAdmin none
        (.raised "rpc down") 9).1.upgradeLogs
      = [{ pendingRowOf (DbState.mk [exContract] [] 1) 1 exContract hashB exAdmin none with
            status := .failed,
            simulation_result := some (simResultOfRpc (.raised "rpc down")),
            error_message := some "rpc down",
            completed_at := some 9 }] := by
  have h := (simulateUpgrade_creates_one_log (DbState.mk [exContract] [] 1) 1
      hashB exAdmin none (.raised "rpc down") 9 exContract (by decide) (by decide)
      (by intro l hl; simp at hl)).2.2.2.1
  simpa using h

/-- Characterization of the migration loop when the step executor succeeds
at every position below `k` (offsets relative to the start index `i`) and
fails at position `k`: the loop stops there, never touching later steps. -/
lemma runStepsLoop_fail_at (exec : Nat → Except String Unit)
    (steps : List MigrationStep) (i k : Nat) (msg : String)
    (hk : k < steps.length)
    (hok : ∀ j, j < k → exec (i + j) = .ok ())
    (hfail : exec (i + k) = .error msg) :
    runStepsLoop exec i steps
      = ((steps.take k).map markStepCompleted
           ++ markStepFailed (steps.get ⟨k, hk⟩) msg :: steps.drop (k + 1),
         some ((steps.get ⟨k, hk⟩).name, msg)) := by
  induction steps generalizing i k with
  | nil => exact absurd hk (by simp)
  | cons s rest ih =>
    cases k with
    | zero =>
      have h0 : exec i = .error msg := by simpa using hfail
      simp [runStepsLoop, h0]
    | succ k2 =>
      have h0 : exec i = .ok () := by simpa using hok 0 (Nat.succ_pos k2)
      have hk2 : k2 < rest.length := by simpa using Nat.lt_of_succ_lt_succ hk
      have hok2 : ∀ j, j < k2 → exec (i + 1 + j) = .ok () := by
        intro j hj
        have harith : i + 1 + j = i + (j + 1) := by omega
        rw [harith]
        exact hok (j + 1) (by omega)
      have hfail2 : exec (i + 1 + k2) = .error msg := by
        have harith : i + 1 + k2 = i + (k2 + 1) := by omega
        rw [harith]
        exact hfail
      have ihr := ih (i + 1) k2 hk2 hok2 hfail2
      simp [runStepsLoop, h0, ihr]

/-- C6: when migration step `k` fails during `runMigrationSteps`, steps
`0..k-1` are left `completed`, step `k` is left `failed` carrying the
step's error message, every step after `k` is left exactly as loaded (the
loop stops: executors agreeing up to `k` produce the same outcome, so
later steps are never attempted), and the parent log is marked `failed`
with `completed_at` set. -/
theorem runMigrationSteps_fail_at (st : DbState) (upgradeLogId : Nat)
    (log : UpgradeLog) (exec : Nat → Except String Unit) (now : Nat)
    (k : Nat) (msg : String)
    (hfind : findLog st upgradeLogId = some log)
    (hk : k < log.migration_steps.length)
    (hok : ∀ j, j < k → exec j = .ok ())
    (hfail : exec k = .error msg) :
    findLog (runMigrationSteps st upgradeLogId exec now) upgradeLogId
      = some { log with
          migration_steps :=
            (log.migration_steps.take k).map markStepCompleted
              ++ markStepFailed (log.migration_steps.get ⟨k, hk⟩) msg
                 :: log.migration_steps.drop (k + 1),
          status := .failed,
          error_message := some (migrationFailedMsg
            (log.migration_steps.get ⟨k, hk⟩).name msg),
          completed_at := some now }
    ∧ (∀ s ∈ (log.migration_steps.take k).map markStepCompleted,
        s.status = .completed)
    ∧ (markStepFailed (log.migration_steps.get ⟨k, hk⟩) msg).status = .failed
    ∧ (markStepFailed (log.migration_steps.get ⟨k, hk⟩) msg).message = some msg
    ∧ (∀ exec2, (∀ j, j ≤ k → exec2 j = exec j) →
        runMigrationSteps st upgradeLogId exec2 now
          = runMigrationSteps st upgradeLogId exec now) := by
  have hloop : ∀ e2 : Nat → Except String Unit,
      (∀ j, j < k → e2 j = .ok ()) → e2 k = .error msg →
      runStepsLoop e2 0 log.migration_steps
        = ((log.migration_steps.take k).map markStepCompleted
             ++ markStepFailed (log.migration_steps.get ⟨k, hk⟩) msg
                :: log.migration_steps.drop (k + 1),
           some ((log.migration_steps.get ⟨k, hk⟩).name, msg)) := by
    intro e2 hok2 hfail2
    exact runStepsLoop_fail_at e2 log.migration_steps 0 k msg hk
      (fun j hj => by simpa using hok2 j hj) (by simpa using hfail2)
  have hrun : runMigrationSteps st upgradeLogId exec now
      = updateLog st upgradeLogId (fun l =>
          { l with
            migration_steps :=
              (log.migration_steps.take k).map markStepCompleted
                ++ markStepFailed (log.migration_steps.get ⟨k, hk⟩) msg
                   :: log.migration_steps.drop (k + 1),
            status := .failed,
            error_message := some (migrationFailedMsg
              (log.migration_steps.get ⟨k, hk⟩).name msg),
            completed_at := some now }) := by
    unfold runMigrationSteps
    simp only [hfind, hloop exec hok hfail]
  refine ⟨?_, ?_, rfl, rfl, ?_⟩
  · rw [hrun]
    rw [findLog_updateLog st upgradeLogId (fun l =>
          { l with
            migration_steps :=
              (log.migration_steps.take k).map markStepCompleted
                ++ markStepFailed (log.migration_steps.get ⟨k, hk⟩) msg
                   :: log.migration_steps.drop (k + 1),
            status := .failed,
            error_message := some (migrationFailedMsg
              (log.migration_steps.get ⟨k, hk⟩).name msg),
            completed_at := some now }) (fun l => rfl)]
    rw [hfind]
    rfl
  · intro s hs
    simp only [List.mem_map] at hs
    obtain ⟨a, -, ha⟩ := hs
    rw [← ha]
    rfl
  · intro exec2 hagree
    rw [hrun]
    unfold runMigrationSteps
    simp only [hfind, hloop exec2
      (fun j hj => by rw [hagree j (Nat.le_of_lt hj)]; exact hok j hj)
      (by rw [hagree k (Nat.le_refl k)]; exact hfail)]

/-- Witness for C6: failure at step 1 of the default step list. -/
theorem runMigrationSteps_fail_at_witness :
    findLog (runMigrationSteps
        (DbState.mk [] [{ exLogPending with status := .executing }] 2) 1
        (fun j => if j = 1 then .error "boom" else .ok ()) 7) 1
      = some { { exLogPending with status := .executing } with
          migration_steps :=
            (buildDefaultMigrationSteps.take 1).map markStepCompleted
              ++ markStepFailed (buildDefaultMigrationSteps.get ⟨1, by decide⟩) "boom"
                 :: buildDefaultMigrationSteps.drop 2,
          status := .failed,
          error_message := some (migrationFailedMsg
            (buildDefaultMigrationSteps.get ⟨1, by decide⟩).name "boom"),
          completed_at := some 7 } :=
  (runMigrationSteps_fail_at
      (DbState.mk [] [{ exLogPending with status := .executing }] 2) 1
      { exLogPending with status := .executing }
      (fun j => if j = 1 then .error "boom" else .ok ()) 7 1 "boom"
      (by decide) (by decide)
      (fun j hj => by interval_cases j; rfl) (by rfl)).1

/-- C1 counterexample states: execute a simulated upgrade successfully,
then run migration steps with step 0 failing. -/
def c1St0 : DbState :=
  { registry := [exContract],
    upgradeLogs := [{ exLogPending with status := .simulated }], nextLogId := 2 }

/-- State after the successful on-chain execution (registry hash already
rewritten, `tx_hash` recorded, log still `executing`). -/
def c1St1 : DbState := (executeUpgrade c1St0 1 (.success "deadbeef" "GADMIN") 5).1

/-- State after the post-upgrade migration fails at step 0. -/
def c1St2 : DbState :=
  runMigrationSteps c1St1 1 (fun i => if i = 0 then .error "boom" else .ok ()) 6

/-- C1 counterexample: the claim says `current_wasm_hash` is mutated only
inside the unit of work that marks the upgrade log `completed`.  In the
code the mutation happens in `executeUpgrade` while the log is still
`executing`, and when a migration step later fails the log ends `failed` —
the hash was mutated although no operation ever marked this log
`completed`. -/
theorem registry_hash_mutated_without_completion :
    (getContract c1St1.registry 1).map ContractRecord.current_wasm_hash = some hashB
    ∧ (findLog c1St1 1).map UpgradeLog.status = some .executing
    ∧ (findLog c1St1 1).map UpgradeLog.tx_hash = some (some "deadbeef")
    ∧ (getContract c1St2.registry 1).map ContractRecord.current_wasm_hash = some hashB
    ∧ (findLog c1St2 1).map UpgradeLog.status = some .failed
    ∧ (findLog c1St2 1).map UpgradeLog.status ≠ some .completed := by
  refine ⟨by decide, by decide, by decide, by decide, by decide, by decide⟩

/-- C1 (amended): `current_wasm_hash` is mutated only by a successful
`executeUpgrade`, inside the same operation that records the `tx_hash`
(the log then being `executing`); marking the log `completed` happens only
later, in `runMigrationSteps`, and only when every step succeeds.  No other
operation — `simulateUpgrade`, `cancelUpgrade`, `runMigrationSteps`, or a
failing/rejected `executeUpgrade` — mutates any registry entry. -/
theorem registry_hash_mutation_policy :
    (∀ st registryId newWasmHash initiatedBy notes rpc now,
      (simulateUpgrade st registryId newWasmHash initiatedBy notes rpc now).1.registry
        = st.registry)
    ∧ (∀ st upgradeLogId now,
        (cancelUpgrade st upgradeLogId now).1.registry = st.registry)
    ∧ (∀ st upgradeLogId exec now,
        (runMigrationSteps st upgradeLogId exec now).registry = st.registry)
    ∧ (∀ st upgradeLogId msg now,
        (executeUpgrade st upgradeLogId (.failure msg) now).1.registry = st.registry)
    ∧ (∀ st upgradeLogId log txHash pk now,
        findLog st upgradeLogId = some log →
        log.status = .simulated ∨ log.status = .confirmed →
        (executeUpgrade st upgradeLogId (.success txHash pk) now).1.registry
            = st.registry.map (fun c =>
                if c.id = log.registry_id then
                  { c with current_wasm_hash := log.new_wasm_hash,
                           last_upgraded_at := some now,
                           last_upgraded_by := some pk }
                else c)
        ∧ findLog (executeUpgrade st upgradeLogId (.success txHash pk) now).1
              upgradeLogId
            = some { log with status := .executing, tx_hash := some txHash }) := by
  refine ⟨?_, ?_, ?_, ?_, ?_⟩
  · intro st registryId newWasmHash initiatedBy notes rpc now
    unfold simulateUpgrade simulateInsertLog
    cases getContract st.registry registryId with
    | none => rfl
    | some contract =>
      by_cases hchk : upgradeLogRowChecks
          (pendingRowOf st registryId contract newWasmHash initiatedBy notes) = true
      · simp [hchk, simulateFinish, updateLog]
      · simp [hchk]
  · intro st upgradeLogId now
    unfold cancelUpgrade
    by_cases h : st.upgradeLogs.any
        (fun l => l.id = upgradeLogId && cancellable l.status) = true
    · rw [h]
      rfl
    · rw [Bool.not_eq_true] at h
      rw [h]
      rfl
  · intro st upgradeLogId exec now
    unfold runMigrationSteps
    cases hfind : findLog st upgradeLogId with
    | none => rfl
    | some log =>
      rcases hrs : runStepsLoop exec 0 log.migration_steps with ⟨steps2, fail2⟩
      cases fail2 with
      | none => simp [hrs, updateLog]
      | some p => rcases p with ⟨a, b⟩; simp [hrs, updateLog]
  · intro st upgradeLogId msg now
    unfold executeUpgrade
    cases hfind : findLog st upgradeLogId with
    | none => rfl
    | some log =>
      by_cases h : log.status = .simulated ∨ log.status = .confirmed
      · simp [h, updateLog]
      · simp [h]
  · intro st upgradeLogId log txHash pk now hfind hstatus
    have hexec : executeUpgrade st upgradeLogId (.success txHash pk) now
        = (updateLog
            { (updateLog st upgradeLogId (fun l => { l with status := .executing })) with
              registry := (updateLog st upgradeLogId
                  (fun l => { l with status := .executing })).registry.map (fun c =>
                if c.id = log.registry_id then
                  { c with current_wasm_hash := log.new_wasm_hash,
                           last_upgraded_at := some now,
                           last_upgraded_by := some pk }
                else c) }
            upgradeLogId (fun l => { l with tx_hash := some txHash }),
          .ok { upgradeLogId := upgradeLogId, txHash := txHash }) := by
      unfold executeUpgrade
      simp only [hfind]
      rw [if_pos hstatus]
    constructor
    · rw [hexec]
      rfl
    · rw [hexec]
      show findLog (updateLog _ upgradeLogId _) upgradeLogId = _
      rw [findLog_updateLog _ upgradeLogId
          (fun l => { l with tx_hash := some txHash }) (fun l => rfl)]
      have hreg : findLog
          { (updateLog st upgradeLogId (fun l => { l with status := .executing })) with
            registry := (updateLog st upgradeLogId
                (fun l => { l with status := .executing })).registry.map (fun c =>
              if c.id = log.registry_id then
                { c with current_wasm_hash := log.new_wasm_hash,
                         last_upgraded_at := some now,
                         last_upgraded_by := some pk }
              else c) } upgradeLogId
          = findLog (updateLog st upgradeLogId
              (fun l => { l with status := .executing })) upgradeLogId := rfl
      rw [hreg, findLog_updateLog st upgradeLogId
          (fun l => { l with status := .executing }) (fun l => rfl), hfind]
      rfl

/-- Witness for C1 (amended): the success branch at the concrete state of
the counterexample. -/
theorem registry_hash_mutation_policy_witness :
    (executeUpgrade c1St0 1 (.success "deadbeef" "GADMIN") 5).1.registry
      = [({ exContract with current_wasm_hash := hashB,
                            last_upgraded_at := some 5,
                            last_upgraded_by := some "GADMIN" })] := by
  have h := (registry_hash_mutation_policy.2.2.2.2 c1St0 1
      { exLogPending with status := .simulated } "deadbeef" "GADMIN" 5
      (by decide) (Or.inl rfl)).1
  rw [h]
  decide

/-! ## Indexer helper lemmas -/

/-- The `maxLedger` component of the loop ignores the store. -/
lemma processEvents_snd (events : List RpcContractEvent)
    (store : List EventRow) (lastIndexed : Int) :
    (processEvents events store lastIndexed).2
      = maxConsideredLedger events lastIndexed := by
  induction events generalizing store lastIndexed with
  | nil => rfl
  | cons e rest ih =>
    cases hce : considerEvent e with
    | none => simp only [processEvents, maxConsideredLedger, hce, ih]
    | some p =>
      rcases p with ⟨cid, ls⟩
      simp only [processEvents, maxConsideredLedger, hce, ih]

/-- The running maximum never drops below its starting value. -/
lemma le_maxConsideredLedger (events : List RpcContractEvent)
    (lastIndexed : Int) : lastIndexed ≤ maxConsideredLedger events lastIndexed := by
  induction events generalizing lastIndexed with
  | nil => exact le_refl _
  | cons e rest ih =>
    cases hce : considerEvent e with
    | none =>
      simp only [maxConsideredLedger, hce]
      exact ih lastIndexed
    | some p =>
      rcases p with ⟨cid, ls⟩
      simp only [maxConsideredLedger, hce]
      exact le_trans (le_max_left _ _) (ih (max lastIndexed ls))

/-- Inserting a row makes its key present. -/
lemma hasKey_insertEventRow_self (store : List EventRow) (row : EventRow) :
    hasKey (insertEventRow store row) row.event_id row.contract_id = true := by
  unfold insertEventRow
  by_cases h : hasKey store row.event_id row.contract_id
  · rwa [if_pos h]
  · rw [if_neg h]
    unfold hasKey
    rw [List.any_append]
    simp

/-- Keys present before a conflict-absorbing insert stay present. -/
lemma hasKey_insertEventRow_mono (store : List EventRow) (row : EventRow)
    (a b : String) (h : hasKey store a b = true) :
    hasKey (insertEventRow store row) a b = true := by
  unfold insertEventRow
  by_cases hk : hasKey store row.event_id row.contract_id
  · rwa [if_pos hk]
  · rw [if_neg hk]
    unfold hasKey at h ⊢
    rw [List.any_append]
    simp [h]

/-- `ON CONFLICT DO NOTHING`: inserting an already-present key is a no-op. -/
lemma insertEventRow_of_hasKey (store : List EventRow) (row : EventRow)
    (h : hasKey store row.event_id row.contract_id = true) :
    insertEventRow store row = store := by
  unfold insertEventRow
  rw [if_pos h]

/-- Keys present before the loop stay present after it. -/
lemma processEvents_hasKey_mono (events : List RpcContractEvent)
    (store : List EventRow) (lastIndexed : Int) (a b : String)
    (h : hasKey store a b = true) :
    hasKey (processEvents events store lastIndexed).1 a b = true := by
  induction events generalizing store lastIndexed with
  | nil => exact h
  | cons e rest ih =>
    cases hce : considerEvent e with
    | none =>
      simp only [processEvents, hce]
      exact ih store lastIndexed h
    | some p =>
      rcases p with ⟨cid, ls⟩
      simp only [processEvents, hce]
      exact ih _ _ (hasKey_insertEventRow_mono store _ a b h)

/-- After the loop, every considered event's key is present in the store. -/
lemma processEvents_all_keys (events : List RpcContractEvent)
    (store : List EventRow) (lastIndexed : Int) :
    ∀ e ∈ events, ∀ cid ls, considerEvent e = some (cid, ls) →
      hasKey (processEvents events store lastIndexed).1
        (mkEventRow e cid ls).event_id cid = true := by
  induction events generalizing store lastIndexed with
  | nil => intro e he; exact absurd he (by simp)
  | cons e0 rest ih =>
    intro e he cid ls hce
    rcases List.mem_cons.mp he with he0 | her
    · subst he0
      simp only [processEvents, hce]
      have hself := hasKey_insertEventRow_self store (mkEventRow e cid ls)
      have hcid : (mkEventRow e cid ls).contract_id = cid := rfl
      rw [hcid] at hself
      exact processEvents_hasKey_mono rest _ _ _ _ hself
    · cases hce0 : considerEvent e0 with
      | none =>
        simp only [processEvents, hce0]
        exact ih store lastIndexed e her cid ls hce
      | some p =>
        rcases p with ⟨cid0, ls0⟩
        simp only [processEvents, hce0]
        exact ih _ _ e her cid ls hce

/-- If every considered event's key is already present, the loop leaves the
store untouched (all inserts are conflict no-ops). -/
lemma processEvents_stable (events : List RpcContractEvent)
    (store : List EventRow) (lastIndexed : Int)
    (h : ∀ e ∈ events, ∀ cid ls, considerEvent e = some (cid, ls) →
        hasKey store (mkEventRow e cid ls).event_id cid = true) :
    (processEvents events store lastIndexed).1 = store := by
  induction events generalizing lastIndexed with
  | nil => rfl
  | cons e rest ih =>
    cases hce : considerEvent e with
    | none =>
      simp only [processEvents, hce]
      exact ih lastIndexed (fun e2 he2 => h e2 (List.mem_cons_of_mem _ he2))
    | some p =>
      rcases p with ⟨cid, ls⟩
      simp only [processEvents, hce]
      have hkey := h e (List.mem_cons_self e rest) cid ls hce
      have hcid : (mkEventRow e cid ls).contract_id = cid := rfl
      rw [insertEventRow_of_hasKey store _ (by rw [hcid]; exact hkey)]
      exact ih (max lastIndexed ls) (fun e2 he2 => h e2 (List.mem_cons_of_mem _ he2))

/-- A conflict-absorbing insert preserves key uniqueness. -/
lemma uniqueEventKeys_insertEventRow (store : List EventRow) (row : EventRow)
    (h : uniqueEventKeys store) : uniqueEventKeys (insertEventRow store row) := by
  unfold insertEventRow
  by_cases hk : hasKey store row.event_id row.contract_id
  · rwa [if_pos hk]
  · rw [if_neg hk]
    unfold uniqueEventKeys at h ⊢
    rw [List.pairwise_append]
    refine ⟨h, List.pairwise_singleton _ _, ?_⟩
    intro a ha b hb
    rw [List.mem_singleton] at hb
    subst hb
    rintro ⟨h1, h2⟩
    apply hk
    unfold hasKey
    rw [List.any_eq_true]
    exact ⟨a, ha, by simp [h1, h2]⟩

/-- The loop preserves key uniqueness. -/
lemma uniqueEventKeys_processEvents (events : List RpcContractEvent)
    (store : List EventRow) (lastIndexed : Int) (h : uniqueEventKeys store) :
    uniqueEventKeys (processEvents events store lastIndexed).1 := by
  induction events generalizing store lastIndexed with
  | nil => exact h
  | cons e rest ih =>
    cases hce : considerEvent e with
    | none =>
      simp only [processEvents, hce]
      exact ih store lastIndexed h
    | some p =>
      rcases p with ⟨cid, ls⟩
      simp only [processEvents, hce]
      exact ih _ _ (uniqueEventKeys_insertEventRow store _ h)

/-- Events stored by a successful, non-empty cycle. -/
lemma pollOnce_events_ok (floor : Int) (cs : List String)
    (rpc : Int → Except String (List RpcContractEvent)) (st : IndexerState)
    (events : List RpcContractEvent) (hcs : cs.isEmpty = false)
    (hrpc : rpc (max (st.checkpoint.getD floor + 1) floor) = .ok events)
    (hev : events.isEmpty = false) :
    (pollOnce floor cs rpc st).events
      = (processEvents events st.events (st.checkpoint.getD floor)).1 := by
  unfold pollOnce
  rw [hrpc]
  simp only [hcs, hev, Bool.false_eq_true, if_false]
  by_cases hlt : st.checkpoint.getD floor
      < (processEvents events st.events (st.checkpoint.getD floor)).2
  · rw [if_pos hlt]
  · rw [if_neg hlt]

/-- Checkpoint written by a successful, non-empty cycle when the state row
is present. -/
lemma pollOnce_checkpoint_ok (floor : Int) (cs : List String)
    (rpc : Int → Except String (List RpcContractEvent)) (st : IndexerState)
    (events : List RpcContractEvent) (c : Int)
    (h : st.checkpoint = some c) (hcs : cs.isEmpty = false)
    (hrpc : rpc (max (c + 1) floor) = .ok events)
    (hev : events.isEmpty = false) :
    (pollOnce floor cs rpc st).checkpoint
      = (if c < maxConsideredLedger events c
         then some (maxConsideredLedger events c) else some c) := by
  unfold pollOnce
  rw [h]
  simp only [Option.getD_some]
  rw [hrpc]
  simp only [hcs, hev, Bool.false_eq_true, if_false]
  rw [processEvents_snd]
  by_cases hlt : c < maxConsideredLedger events c
  · rw [if_pos hlt, if_pos hlt]
    rfl
  · rw [if_neg hlt, if_neg hlt]

/-- A cycle whose RPC call throws changes nothing at all. -/
lemma pollOnce_rpc_error (floor : Int) (cs : List String)
    (rpc : Int → Except String (List RpcContractEvent)) (st : IndexerState)
    (msg : String)
    (hrpc : rpc (max (st.checkpoint.getD floor + 1) floor) = .error msg) :
    pollOnce floor cs rpc st = st := by
  unfold pollOnce
  rw [hrpc]
  by_cases hcs : cs.isEmpty
  · rw [if_pos hcs]
  · rw [if_neg hcs]

/-- Single-cycle checkpoint monotonicity (state row present). -/
lemma pollOnce_checkpoint_some_mono (floor : Int) (cs : List String)
    (rpc : Int → Except String (List RpcContractEvent)) (st : IndexerState)
    (c : Int) (h : st.checkpoint = some c) :
    ∃ c2, (pollOnce floor cs rpc st).checkpoint = some c2 ∧ c ≤ c2 := by
  by_cases hcs : cs.isEmpty
  · have hpoll : pollOnce floor cs rpc st = st := by
      unfold pollOnce
      rw [if_pos hcs]
    rw [hpoll]
    exact ⟨c, h, le_refl c⟩
  · cases hrpc : rpc (max (c + 1) floor) with
    | error msg =>
      rw [pollOnce_rpc_error floor cs rpc st msg (by rw [h]; exact hrpc)]
      exact ⟨c, h, le_refl c⟩
    | ok events =>
      have hcs2 : cs.isEmpty = false := by
        cases hcase : cs.isEmpty
        · rfl
        · exact absurd hcase hcs
      by_cases hev : events.isEmpty
      · have hpoll : pollOnce floor cs rpc st = st := by
          unfold pollOnce
          rw [if_neg hcs, h]
          simp only [Option.getD_some, hrpc, hev, if_true]
        rw [hpoll]
        exact ⟨c, h, le_refl c⟩
      · have hev2 : events.isEmpty = false := by
          cases hcase : events.isEmpty
          · rfl
          · exact absurd hcase hev
        by_cases hlt : c < (processEvents events st.events c).2
        · have hpoll : (pollOnce floor cs rpc st).checkpoint
              = some ((processEvents events st.events c).2) := by
            unfold pollOnce
            rw [if_neg hcs, h]
            simp only [Option.getD_some, hrpc, hev2, Bool.false_eq_true,
              if_false, hlt, if_true]
            rfl
          exact ⟨(processEvents events st.events c).2, hpoll, le_of_lt hlt⟩
        · have hpoll : (pollOnce floor cs rpc st).checkpoint = some c := by
            unfold pollOnce
            rw [if_neg hcs, h]
            simp only [Option.getD_some, hrpc, hev2, Bool.false_eq_true,
              if_false, hlt, if_false]
          exact ⟨c, hpoll, le_refl c⟩

/-- A whole sequence of `pollOnce` cycles, each with its own RPC behaviour
(`rpcs` lists the behaviour seen by each successive cycle). -/
def pollMany (floor : Int) (contracts : List String)
    (rpcs : List (Int → Except String (List RpcContractEvent)))
    (st : IndexerState) : IndexerState :=
  rpcs.foldl (fun s rpc => pollOnce floor contracts rpc s) st

/-- C4: the checkpoint never decreases across any sequence of `pollOnce`
cycles; within one successful non-empty cycle the final state carries the
processed events and the checkpoint is advanced (once, after all inserts)
to the maximum ledger sequence among the considered events exactly when
that maximum exceeds the prior checkpoint; and a cycle whose RPC call
throws leaves the whole state — checkpoint and event rows — unchanged. -/
theorem pollOnce_checkpoint_spec :
    (∀ floor cs rpcs st c, st.checkpoint = some c →
      ∃ c2, (pollMany floor cs rpcs st).checkpoint = some c2 ∧ c ≤ c2)
    ∧ (∀ floor cs rpc st c events, st.checkpoint = some c →
        cs.isEmpty = false → rpc (max (c + 1) floor) = .ok events →
        events.isEmpty = false →
        (pollOnce floor cs rpc st).events
            = (processEvents events st.events c).1
        ∧ (pollOnce floor cs rpc st).checkpoint
            = (if c < maxConsideredLedger events c
               then some (maxConsideredLedger events c) else some c))
    ∧ (∀ floor cs rpc st msg,
        rpc (max (st.checkpoint.getD floor + 1) floor) = .error msg →
        pollOnce floor cs rpc st = st) := by
  refine ⟨?_, ?_, ?_⟩
  · intro floor cs rpcs st c h
    induction rpcs generalizing st c with
    | nil => exact ⟨c, h, le_refl c⟩
    | cons r rest ih =>
      obtain ⟨c1, h1, hle1⟩ := pollOnce_checkpoint_some_mono floor cs r st c h
      obtain ⟨c2, h2, hle2⟩ := ih (pollOnce floor cs r st) c1 h1
      exact ⟨c2, h2, le_trans hle1 hle2⟩
  · intro floor cs rpc st c events h hcs hrpc hev
    have hgd : st.checkpoint.getD floor = c := by rw [h]; rfl
    constructor
    · have := pollOnce_events_ok floor cs rpc st events hcs (by rwa [hgd]) hev
      rwa [hgd] at this
    · exact pollOnce_checkpoint_ok floor cs rpc st events c h hcs hrpc hev
  · intro floor cs rpc st msg hrpc
    exact pollOnce_rpc_error floor cs rpc st msg hrpc

/-- Witness for C4: a cycle against an erroring RPC fixture is the
identity on a concrete state. -/
theorem pollOnce_checkpoint_spec_witness :
    pollOnce 0 ["c"] (fun _ => .error "down") (IndexerState.mk [] (some 5))
      = IndexerState.mk [] (some 5) :=
  pollOnce_checkpoint_spec.2.2 0 ["c"] (fun _ => .error "down")
    (IndexerState.mk [] (some 5)) "down" rfl

/-- C5: against a fixture RPC that returns the same fixed event batch on
every call, running `pollOnce` twice leaves exactly the same event rows as
running it once (the second cycle's inserts are all absorbed by the
do-nothing-on-conflict key (`event_id`,`contract_id`), where `event_id`
falls back to `contractId-ledgerSequence-txHash` when absent), and each
(`event_id`,`contract_id`) pair is stored at most once. -/
theorem pollOnce_idempotent (floor : Int) (cs : List String)
    (events : List RpcContractEvent) (st : IndexerState)
    (h : uniqueEventKeys st.events) :
    (pollOnce floor cs (fun _ => .ok events)
        (pollOnce floor cs (fun _ => .ok events) st)).events
      = (pollOnce floor cs (fun _ => .ok events) st).events
    ∧ uniqueEventKeys (pollOnce floor cs (fun _ => .ok events) st).events := by
  by_cases hcs : cs.isEmpty
  · have hid : ∀ s : IndexerState, pollOnce floor cs (fun _ => .ok events) s = s := by
      intro s
      unfold pollOnce
      rw [if_pos hcs]
    rw [hid st, hid st]
    exact ⟨rfl, h⟩
  · have hcs2 : cs.isEmpty = false := by
      cases hcase : cs.isEmpty
      · rfl
      · exact absurd hcase hcs
    by_cases hev : events.isEmpty
    · have hid : ∀ s : IndexerState, pollOnce floor cs (fun _ => .ok events) s = s := by
        intro s
        unfold pollOnce
        rw [if_neg hcs]
        simp [hev]
      rw [hid st, hid st]
      exact ⟨rfl, h⟩
    · have hev2 : events.isEmpty = false := by
        cases hcase : events.isEmpty
        · rfl
        · exact absurd hcase hev
      have h1 := pollOnce_events_ok floor cs (fun _ => .ok events) st events
        hcs2 rfl hev2
      have h2 := pollOnce_events_ok floor cs (fun _ => .ok events)
        (pollOnce floor cs (fun _ => .ok events) st) events hcs2 rfl hev2
      constructor
      · rw [h2, h1]
        apply processEvents_stable
        intro e he cid ls hce
        exact processEvents_all_keys events st.events
          (st.checkpoint.getD floor) e he cid ls hce
      · rw [h1]
        exact uniqueEventKeys_processEvents events st.events
          (st.checkpoint.getD floor) h

/-- Witness for C5 with a one-event fixture on an empty store. -/
theorem pollOnce_idempotent_witness :
    uniqueEventKeys (IndexerState.mk [] (some 0)).events
    ∧ ((pollOnce 0 ["c"]
          (fun _ => .ok [{ id := none, type := some "t", txHash := some "h",
                           ledger := none, ledgerSequence := some 3,
                           contractId := some "c", topic := none }])
          (pollOnce 0 ["c"]
            (fun _ => .ok [{ id := none, type := some "t", txHash := some "h",
                             ledger := none, ledgerSequence := some 3,
                             contractId := some "c", topic := none }])
            (IndexerState.mk [] (some 0)))).events
        = (pollOnce 0 ["c"]
            (fun _ => .ok [{ id := none, type := some "t", txHash := some "h",
                             ledger := none, ledgerSequence := some 3,
                             contractId := some "c", topic := none }])
            (IndexerState.mk [] (some 0))).events) :=
  ⟨List.Pairwise.nil,
   (pollOnce_idempotent 0 ["c"]
      [{ id := none, type := some "t", txHash := some "h", ledger := none,
         ledgerSequence := some 3, contractId := some "c", topic := none }]
      (IndexerState.mk [] (some 0)) List.Pairwise.nil).1⟩

end PayD
